import Mathlib

/-!
Shallow embedding of the hostel-management room-booking core: the slot
generator and availability projector (`src/lib/utils.ts` and its
near-duplicate `src/lib/availability.ts`), the quota tracker
(`checkUserBookingLimits`), and the booking route handlers
(`POST` create, `PUT` modify, `DELETE` cancel of the bookings API).

Instants are modelled as integers counting whole minutes of local time:
minute 0 is local midnight of day 0, and day 0 is a Sunday (so JavaScript `Date.getDay` is
day-index mod 7).  The Prisma store is a record of lists; a Prisma
`$transaction` is an atomic state transformation that returns the original
store when the handler throws.  String slot ids (`yyyy-MM-dd-HHmm`) are
replaced by the slot's start instant, which is injective for a fixed date
exactly as the source ids are.
-/

deriving instance DecidableEq for Except

def SLOT_MINUTES : Nat := 30
def MAX_BOOKING_HOURS : Nat := 2
def DAILY_BOOKING_CAP : Nat := 2
def WEEKLY_HOURS_CAP : Nat := 6

/-- Index of the local calendar day containing `t`. -/
def dayOf (t : Int) : Int := t / 1440

/-- `date-fns` `startOfDay`: local midnight of the day containing `t`. -/
def startOfDay (t : Int) : Int := dayOf t * 1440

/-- `date-fns` `isSameDay`. -/
def isSameDay (a b : Int) : Bool := dayOf a == dayOf b

/-- JavaScript `Date.prototype.getDay`: 0 = Sunday, … , 6 = Saturday. -/
def getDay (t : Int) : Int := dayOf t % 7

inductive BookingStatus where
  | confirmed
  | cancelled
  | completed
  deriving DecidableEq, Repr

inductive RoomType where
  | study
  | inventory
  | other
  deriving DecidableEq, Repr

inductive RoomStatus where
  | active
  | blocked
  | maintenance
  deriving DecidableEq, Repr

structure Hostel where
  name : String
  code : String
  deriving DecidableEq, Repr

structure Room where
  id : Nat
  name : String
  capacity : Nat
  hostelId : Nat
  hostel : Hostel
  type : RoomType
  status : RoomStatus
  deriving DecidableEq, Repr

structure Booking where
  id : Nat
  roomId : Nat
  userId : String
  startTime : Int
  endTime : Int
  status : BookingStatus
  purpose : Option String
  partySize : Nat
  createdAt : Int
  updatedAt : Int
  deriving DecidableEq, Repr

structure BookingFairnessSnapshot where
  bookingId : Nat
  userId : String
  dailyCount : Nat
  weeklyCount : Int
  lastUseAt : Int
  penaltyScore : Nat
  deriving DecidableEq, Repr

/-- The reservation store (the Prisma database). `nextBookingId` models the
autoincrementing primary key of `Booking`. -/
structure Store where
  rooms : List Room
  bookings : List Booking
  snapshots : List BookingFairnessSnapshot
  nextBookingId : Nat
  deriving DecidableEq, Repr

/-- `TimeSlot` of the availability modules; the string slot id is replaced by
the start instant (see the file header). -/
structure TimeSlot where
  startTime : Int
  endTime : Int
  date : Int
  isAvailable : Bool
  isMyBooking : Bool := false
  bookingId : Option Nat := none
  deriving DecidableEq, Repr

structure ValidationResult where
  isValid : Bool
  error : Option String
  durationHours : ℚ
  deriving DecidableEq, Repr

/-- `validateBookingSlots` (identical copies live in `src/lib/utils.ts` and
`src/lib/availability.ts`; the routes import the latter). -/
def validateBookingSlots (startSlot endSlot : TimeSlot) : ValidationResult :=
  let durationHours : ℚ := ((endSlot.endTime - startSlot.startTime : ℤ) : ℚ) / 60
  if !(isSameDay startSlot.startTime endSlot.startTime) then
    { isValid := false, error := some "Bookings cannot cross midnight",
      durationHours := durationHours }
  else if durationHours > (MAX_BOOKING_HOURS : ℚ) then
    { isValid := false, error := some "Maximum booking duration is 2 hours",
      durationHours := durationHours }
  else if durationHours ≤ 0 then
    { isValid := false, error := some "End time must be after start time",
      durationHours := durationHours }
  else
    { isValid := true, error := none, durationHours := durationHours }

structure LimitsResult where
  canBook : Bool
  dailyCount : Nat
  weeklyHours : ℚ
  error : Option String
  deriving DecidableEq, Repr

/-- `checkUserBookingLimits` (identical in both availability modules); the
booking table is passed explicitly in place of the Prisma client. -/
def checkUserBookingLimits (bookings : List Booking) (userId : String) (date : Int) :
    LimitsResult :=
  let dayStart := startOfDay date
  let weekStart := dayStart - getDay date * 1440
  let dailyBookings := (bookings.filter (fun b =>
    b.userId == userId && decide (dayStart ≤ b.startTime) &&
    decide (b.startTime < dayStart + 24 * 60) && b.status != .cancelled)).length
  let weeklyBookings := bookings.filter (fun b =>
    b.userId == userId && decide (weekStart ≤ b.startTime) &&
    decide (b.startTime < weekStart + 7 * 24 * 60) && b.status != .cancelled)
  let weeklyHours : ℚ :=
    (weeklyBookings.map (fun b => ((b.endTime - b.startTime : ℤ) : ℚ) / 60)).sum
  if dailyBookings ≥ DAILY_BOOKING_CAP then
    { canBook := false, dailyCount := dailyBookings, weeklyHours := weeklyHours,
      error := some "Daily booking limit reached (2 bookings per day)" }
  else if weeklyHours ≥ (WEEKLY_HOURS_CAP : ℚ) then
    { canBook := false, dailyCount := dailyBookings, weeklyHours := weeklyHours,
      error := some "Weekly hours limit reached (6 hours per week)" }
  else
    { canBook := true, dailyCount := dailyBookings, weeklyHours := weeklyHours,
      error := none }

structure TimingResult where
  canModify : Bool
  error : Option String
  deriving DecidableEq, Repr

/-- `validateBookingModificationTiming` of `src/lib/utils.ts` with the wall
clock passed explicitly. -/
def validateBookingModificationTiming (bookingStartTime : Int) (now : Int) :
    TimingResult :=
  let minutesUntilBooking := bookingStartTime - now
  if minutesUntilBooking ≤ 0 then
    { canModify := false,
      error := some "Cannot modify bookings that have already started or are in the past" }
  else if minutesUntilBooking < 15 then
    { canModify := false,
      error := some "Bookings can only be modified at least 15 minutes before the start time" }
  else
    { canModify := true, error := none }

structure ModifiedLimitsResult where
  isValid : Bool
  error : Option String
  deriving DecidableEq, Repr

/-- `validateModifiedBookingLimits` of `src/lib/utils.ts`. -/
def validateModifiedBookingLimits (bookings : List Booking) (userId : String)
    (originalStart originalEnd newStart newEnd : Int) : ModifiedLimitsResult :=
  let originalDurationHours : ℚ := ((originalEnd - originalStart : ℤ) : ℚ) / 60
  let newDurationHours : ℚ := ((newEnd - newStart : ℤ) : ℚ) / 60
  if newDurationHours > originalDurationHours then
    let additionalHours := newDurationHours - originalDurationHours
    let limitsCheck := checkUserBookingLimits bookings userId newStart
    if !limitsCheck.canBook &&
        decide (limitsCheck.weeklyHours + additionalHours > (WEEKLY_HOURS_CAP : ℚ)) then
      { isValid := false,
        error := some "Modified booking would exceed weekly hours limit (6 hours per week)" }
    else
      { isValid := true, error := none }
  else
    { isValid := true, error := none }

/-- The availability view returned by `getRoomAvailability`. -/
structure RoomAvailability where
  roomId : Nat
  room : Room
  slots : List TimeSlot
  availableSlots : Nat
  totalSlots : Nat
  deriving DecidableEq, Repr

/-- The Prisma sub-query of `getRoomAvailability`: the room's bookings whose
`startTime` is at or after the day's start, whose `endTime` is at or before
the next midnight, and whose status is not `CANCELLED`. -/
def relevantBookings (bookings : List Booking) (roomId : Nat) (date : Int) :
    List Booking :=
  bookings.filter (fun b =>
    b.roomId == roomId && decide (startOfDay date ≤ b.startTime) &&
    decide (b.endTime ≤ startOfDay date + 24 * 60) && b.status != .cancelled)

/-- The `bookedSlots` map entry of a slot: the booking the `forEach` loops
leave in the map, namely the last booking in list order whose interval fully
contains the slot's interval. -/
def slotBooking (bookings : List Booking) (slot : TimeSlot) : Option Booking :=
  (bookings.filter (fun b =>
    decide (b.startTime ≤ slot.startTime) && decide (slot.endTime ≤ b.endTime))).getLast?

/-- `booking.userId === userId` guarded by presence of a requesting user, as in
`userId ? booking.userId === userId : false`. -/
def isMyBookingFlag (userId : Option String) (b : Option Booking) : Bool :=
  match userId, b with
  | some u, some bk => bk.userId == u
  | _, _ => false

namespace Utils

/-- `generateTimeSlots` of `src/lib/utils.ts`: 30-minute slots over operating
hours 00:00–24:00, with slots already begun on today's date seeded
unavailable.  The wall clock `now` is passed explicitly. -/
def generateTimeSlots (date : Int) (now : Int) : List TimeSlot :=
  let dayStart := startOfDay date
  (List.range 24).flatMap (fun hour =>
    (List.range (60 / SLOT_MINUTES)).map (fun i =>
      let minute := SLOT_MINUTES * i
      let startTime := dayStart + ((hour * 60 + minute : Nat) : Int)
      let endTime := startTime + (SLOT_MINUTES : Int)
      { startTime := startTime, endTime := endTime, date := dayOf date,
        isAvailable := !(isSameDay date now && decide (startTime ≤ now)) }))

/-- `getRoomAvailability` of `src/lib/utils.ts`.  `none` models the thrown
`Room not found` error. -/
def getRoomAvailability (s : Store) (roomId : Nat) (date : Int)
    (userId : Option String) (now : Int) : Option RoomAvailability :=
  match s.rooms.find? (fun r => r.id == roomId) with
  | none => none
  | some room =>
    let bs := relevantBookings s.bookings roomId date
    let slots := generateTimeSlots date now
    let updatedSlots := slots.map (fun slot =>
      let mb := slotBooking bs slot
      { slot with
          isAvailable := slot.isAvailable && mb.isNone,
          isMyBooking := isMyBookingFlag userId mb,
          bookingId := mb.map (fun b => b.id) })
    some { roomId := room.id, room := room, slots := updatedSlots,
           availableSlots := (updatedSlots.filter (fun slot => slot.isAvailable)).length,
           totalSlots := slots.length }

end Utils

namespace Avail

/-- `generateTimeSlots` of `src/lib/availability.ts`: 30-minute slots over
operating hours 08:00–22:00; every slot is seeded available and the wall
clock is never consulted. -/
def generateTimeSlots (date : Int) : List TimeSlot :=
  let dayStart := startOfDay date
  (List.range' 8 14).flatMap (fun hour =>
    (List.range (60 / SLOT_MINUTES)).map (fun i =>
      let minute := SLOT_MINUTES * i
      let startTime := dayStart + ((hour * 60 + minute : Nat) : Int)
      let endTime := startTime + (SLOT_MINUTES : Int)
      { startTime := startTime, endTime := endTime, date := dayOf date,
        isAvailable := true }))

/-- `getRoomAvailability` of `src/lib/availability.ts` (the copy the API
routes import): a slot's final availability is solely `!bookedSlots.has`. -/
def getRoomAvailability (s : Store) (roomId : Nat) (date : Int)
    (userId : Option String) : Option RoomAvailability :=
  match s.rooms.find? (fun r => r.id == roomId) with
  | none => none
  | some room =>
    let bs := relevantBookings s.bookings roomId date
    let slots := generateTimeSlots date
    let updatedSlots := slots.map (fun slot =>
      let mb := slotBooking bs slot
      { slot with
          isAvailable := mb.isNone,
          isMyBooking := isMyBookingFlag userId mb,
          bookingId := mb.map (fun b => b.id) })
    some { roomId := room.id, room := room, slots := updatedSlots,
           availableSlots := (updatedSlots.filter (fun slot => slot.isAvailable)).length,
           totalSlots := slots.length }

end Avail

/-- Error classes of the booking routes, labelled by the code path that
produced them and carrying the exact response message. -/
inductive BookingError where
  | validation (msg : String)
  | quota (msg : String)
  | conflict (msg : String)
  | unavailable (msg : String)
  | notFound (msg : String)
  | forbidden (msg : String)
  | timing (msg : String)
  deriving DecidableEq, Repr

/-- Body of the bookings `POST` route after zod parsing. -/
structure CreateBookingInput where
  roomId : Nat
  startTime : Int
  endTime : Int
  purpose : Option String
  partySize : Nat
  deriving DecidableEq, Repr

/-- Body of the booking `PUT` route after zod parsing; `none` is an absent
field. -/
structure UpdateBookingInput where
  startTime : Option Int
  endTime : Option Int
  purpose : Option String
  partySize : Option Nat
  deriving DecidableEq, Repr

/-- The bookings `POST` handler after authentication (the spec's
`admitBooking`): validation, quota check, then a serializable transaction
performing the conflict check, the room check and both inserts.  The whole
transaction is one atomic state transformation; a thrown error returns the
original store. -/
def createBooking (s : Store) (userId : String) (inp : CreateBookingInput)
    (now : Int) : Store × Except BookingError Booking :=
  let startTime := inp.startTime
  let endTime := inp.endTime
  let slotValidation := validateBookingSlots
    { startTime := startTime, endTime := startTime, date := dayOf startTime,
      isAvailable := true }
    { startTime := endTime, endTime := endTime, date := dayOf endTime,
      isAvailable := true }
  if !slotValidation.isValid then
    (s, .error (.validation (slotValidation.error.getD "")))
  else
    let limitsCheck := checkUserBookingLimits s.bookings userId startTime
    if !limitsCheck.canBook then
      (s, .error (.quota (limitsCheck.error.getD "")))
    else
      match s.bookings.find? (fun b =>
        b.roomId == inp.roomId && decide (b.startTime < endTime) &&
        decide (b.endTime > startTime) && b.status != .cancelled) with
      | some _ => (s, .error (.conflict "Time slot already booked"))
      | none =>
        match s.rooms.find? (fun r =>
          r.id == inp.roomId && r.type == .study && r.status == .active) with
        | none => (s, .error (.unavailable "Room not available"))
        | some _ =>
          let booking : Booking :=
            { id := s.nextBookingId, roomId := inp.roomId, userId := userId,
              startTime := startTime, endTime := endTime, status := .confirmed,
              purpose := inp.purpose, partySize := inp.partySize,
              createdAt := now, updatedAt := now }
          let snap : BookingFairnessSnapshot :=
            { bookingId := booking.id, userId := userId,
              dailyCount := limitsCheck.dailyCount + 1,
              weeklyCount := Int.ceil (limitsCheck.weeklyHours + slotValidation.durationHours),
              lastUseAt := now, penaltyScore := 0 }
          ({ s with bookings := s.bookings ++ [booking],
                    snapshots := s.snapshots ++ [snap],
                    nextBookingId := s.nextBookingId + 1 }, .ok booking)

/-- The booking `PUT` handler after authentication (the spec's
`modifyBooking`). -/
def modifyBooking (s : Store) (userId : String) (bookingId : Nat)
    (upd : UpdateBookingInput) (now : Int) : Store × Except BookingError Booking :=
  match s.bookings.find? (fun b => b.id == bookingId) with
  | none => (s, .error (.notFound "Booking not found"))
  | some existingBooking =>
    if existingBooking.userId != userId then
      (s, .error (.forbidden "Unauthorized to modify this booking"))
    else
      let timingCheck := validateBookingModificationTiming existingBooking.startTime now
      if !timingCheck.canModify then
        (s, .error (.timing (timingCheck.error.getD "")))
      else
        let finalStartTime := upd.startTime.getD existingBooking.startTime
        let finalEndTime := upd.endTime.getD existingBooking.endTime
        let finalPurpose := match upd.purpose with
          | some p => some p
          | none => existingBooking.purpose
        let finalPartySize := upd.partySize.getD existingBooking.partySize
        let timeChangeError : Option BookingError :=
          if upd.startTime.isSome || upd.endTime.isSome then
            let slotValidation := validateBookingSlots
              { startTime := finalStartTime, endTime := finalStartTime,
                date := dayOf finalStartTime, isAvailable := true }
              { startTime := finalEndTime, endTime := finalEndTime,
                date := dayOf finalEndTime, isAvailable := true }
            if !slotValidation.isValid then
              some (.validation (slotValidation.error.getD ""))
            else
              let limitsValidation := validateModifiedBookingLimits s.bookings userId
                existingBooking.startTime existingBooking.endTime finalStartTime finalEndTime
              if !limitsValidation.isValid then
                some (.quota (limitsValidation.error.getD ""))
              else
                match s.bookings.find? (fun b =>
                  b.id != bookingId && b.roomId == existingBooking.roomId &&
                  decide (b.startTime < finalEndTime) &&
                  decide (b.endTime > finalStartTime) && b.status != .cancelled) with
                | some _ => some (.conflict "New time slot conflicts with another booking")
                | none => none
          else none
        match timeChangeError with
        | some e => (s, .error e)
        | none =>
          let updated := fun (b : Booking) =>
            if b.id == bookingId then
              { b with startTime := finalStartTime, endTime := finalEndTime,
                       purpose := finalPurpose, partySize := finalPartySize,
                       updatedAt := now }
            else b
          ({ s with bookings := s.bookings.map updated }, .ok (updated existingBooking))

/-- The booking `DELETE` handler after authentication (the spec's
`cancelBooking`): it status-transitions the row to `CANCELLED`, never
deleting it. -/
def cancelBooking (s : Store) (userId : String) (bookingId : Nat) (now : Int) :
    Store × Except BookingError Nat :=
  match s.bookings.find? (fun b => b.id == bookingId) with
  | none => (s, .error (.notFound "Booking not found"))
  | some existingBooking =>
    if existingBooking.userId != userId then
      (s, .error (.forbidden "Unauthorized to cancel this booking"))
    else
      let timingCheck := validateBookingModificationTiming existingBooking.startTime now
      if !timingCheck.canModify then
        (s, .error (.timing (timingCheck.error.getD "")))
      else
        let newBookings := s.bookings.map (fun b =>
          if b.id == bookingId then { b with status := .cancelled, updatedAt := now }
          else b)
        ({ s with bookings := newBookings }, .ok bookingId)

/-- One sequential invocation of a write route. -/
inductive Op where
  | create (userId : String) (inp : CreateBookingInput) (now : Int)
  | modify (userId : String) (bookingId : Nat) (upd : UpdateBookingInput) (now : Int)
  | cancel (userId : String) (bookingId : Nat) (now : Int)
  deriving DecidableEq, Repr

/-- The store an operation leaves behind (errors leave the store as the
transaction rollback does). -/
def applyOp (s : Store) : Op → Store
  | .create u i n => (createBooking s u i n).1
  | .modify u id upd n => (modifyBooking s u id upd n).1
  | .cancel u id n => (cancelBooking s u id n).1

/-- Sequential execution of a list of write operations. -/
def runOps (s : Store) (ops : List Op) : Store := ops.foldl applyOp s

/-- The per-row rewrite `modifyBooking` applies to the booking table. -/
def applyUpdate (bid : Nat) (fs fe : Int) (fp : Option String) (fps : Nat)
    (now : Int) (b : Booking) : Booking :=
  if b.id == bid then
    { b with startTime := fs, endTime := fe, purpose := fp, partySize := fps,
             updatedAt := now }
  else b

/-- The per-row rewrite `cancelBooking` applies to the booking table. -/
def applyCancel (bid : Nat) (now : Int) (b : Booking) : Booking :=
  if b.id == bid then { b with status := .cancelled, updatedAt := now } else b

/-- Half-open interval overlap exactly as the routes query it:
`existing.start < newEnd AND existing.end > newStart`. -/
def overlaps (s1 e1 s2 e2 : Int) : Prop := s1 < e2 ∧ e1 > s2

/-- The core invariant: no two distinct (by primary key) non-cancelled
reservations on one room overlap. -/
def ConflictFree (bs : List Booking) : Prop :=
  ∀ b1 ∈ bs, ∀ b2 ∈ bs, b1.id ≠ b2.id → b1.roomId = b2.roomId →
    b1.status ≠ .cancelled → b2.status ≠ .cancelled →
    ¬ overlaps b1.startTime b1.endTime b2.startTime b2.endTime

/-- Well-formedness of a store: primary keys are unique and below the
autoincrement counter (facts the database guarantees), and the booking table
is conflict-free. -/
def StoreWF (s : Store) : Prop :=
  (s.bookings.map Booking.id).Nodup ∧
  (∀ b ∈ s.bookings, b.id < s.nextBookingId) ∧
  ConflictFree s.bookings

/-! Concrete data for witnesses and counterexamples. -/

def demoHostel : Hostel := { name := "Hostel One", code := "H1" }

def room1 : Room :=
  { id := 1, name := "R1", capacity := 8, hostelId := 1, hostel := demoHostel,
    type := .study, status := .active }

def mkBooking (id roomId : Nat) (u : String) (s e : Int) (st : BookingStatus) :
    Booking :=
  { id := id, roomId := roomId, userId := u, startTime := s, endTime := e,
    status := st, purpose := none, partySize := 1, createdAt := 0, updatedAt := 0 }

/-- A store holding one active study room and no bookings. -/
def emptyStore : Store :=
  { rooms := [room1], bookings := [], snapshots := [], nextBookingId := 1 }

/-- A one-hour request on room 1, day 3 10:00–11:00. -/
def demoReq : CreateBookingInput :=
  { roomId := 1, startTime := 4920, endTime := 4980, purpose := none, partySize := 1 }

/-- User `u1` already holds 2 h + 2 h + 0.25 h bookings this week plus the
0.5 h booking (id 1) about to be modified: 4.75 weekly hours in total. -/
def c7store : Store :=
  { rooms := [room1],
    bookings := [mkBooking 2 2 "u1" 2040 2160 .confirmed,
                 mkBooking 3 3 "u1" 3480 3600 .confirmed,
                 mkBooking 4 4 "u1" 4920 4935 .confirmed,
                 mkBooking 1 1 "u1" 6360 6390 .confirmed],
    snapshots := [], nextBookingId := 5 }

/-- Extend booking 1 from 30 minutes to 2 hours (+1.5 h, pushing the weekly
total to 6.25 h > 6). -/
def c7upd : UpdateBookingInput :=
  { startTime := some 6360, endTime := some 6480, purpose := none, partySize := none }

/-- A store holding a single COMPLETED booking starting on day 1, 10:00. -/
def c8store : Store :=
  { rooms := [room1], bookings := [mkBooking 1 1 "u1" 2040 2160 .completed],
    snapshots := [], nextBookingId := 2 }

/-- Room 1 is reserved 14:00–16:00 on day 10 (minute 14400 starts day 10). -/
def c4store : Store :=
  { rooms := [room1], bookings := [mkBooking 1 1 "u1" 15240 15360 .confirmed],
    snapshots := [], nextBookingId := 2 }

/-- The booking `createBooking emptyStore "alice" demoReq 0` produces. -/
def demoBooking : Booking :=
  { id := 1, roomId := 1, userId := "alice", startTime := 4920, endTime := 4980,
    status := .confirmed, purpose := none, partySize := 1, createdAt := 0,
    updatedAt := 0 }

/-- The fairness snapshot `createBooking emptyStore "alice" demoReq 0` writes. -/
def demoSnap : BookingFairnessSnapshot :=
  { bookingId := 1, userId := "alice", dailyCount := 1, weeklyCount := 1,
    lastUseAt := 0, penaltyScore := 0 }

/-- The store after `createBooking emptyStore "alice" demoReq 0`. -/
def demoStore1 : Store :=
  { rooms := [room1], bookings := [demoBooking], snapshots := [demoSnap],
    nextBookingId := 2 }

/-- An update request supplying no fields. -/
def noUpd : UpdateBookingInput :=
  { startTime := none, endTime := none, purpose := none, partySize := none }

/-- `demoStore1` after cancelling booking 1. -/
def demoStore1Cancelled : Store :=
  { rooms := [room1], bookings := [{ demoBooking with status := .cancelled }],
    snapshots := [demoSnap], nextBookingId := 2 }

/-- A 2.5-hour request (16:00–18:30 on day 3), past the 2-hour cap. -/
def c5req : CreateBookingInput :=
  { roomId := 1, startTime := 5280, endTime := 5430, purpose := none, partySize := 1 }

/-! General lemmas about the embedded operations. -/

theorem div60_pos_iff (d : ℤ) : (0 : ℚ) < (d : ℚ) / 60 ↔ 0 < d := by
  rw [lt_div_iff₀ (by norm_num : (0 : ℚ) < 60), zero_mul]
  exact_mod_cast Iff.rfl

theorem div60_le_two_iff (d : ℤ) : (d : ℚ) / 60 ≤ 2 ↔ d ≤ 120 := by
  rw [div_le_iff₀ (by norm_num : (0 : ℚ) < 60)]
  norm_num
  exact_mod_cast Iff.rfl

theorem validateBookingSlots_isValid (a b : TimeSlot)
    (h : (validateBookingSlots a b).isValid = true) :
    isSameDay a.startTime b.startTime = true ∧
    a.startTime < b.endTime ∧ b.endTime - a.startTime ≤ 120 := by
  unfold validateBookingSlots at h
  have hcast : ((b.endTime : ℚ) - (a.startTime : ℚ)) = ((b.endTime - a.startTime : ℤ) : ℚ) := by
    push_cast
    ring
  split at h
  · simp at h
  · simp only [] at h
    split at h
    · simp at h
    · split at h
      · simp at h
      · rename_i hday hmax hpos
        refine ⟨by simpa using hday, ?_, ?_⟩
        · have hlt : (0 : ℚ) < ((b.endTime - a.startTime : ℤ) : ℚ) / 60 := lt_of_not_le hpos
          have := (div60_pos_iff (b.endTime - a.startTime)).mp hlt
          omega
        · have hle : ((b.endTime - a.startTime : ℤ) : ℚ) / 60 ≤ (MAX_BOOKING_HOURS : ℚ) :=
            not_lt.mp hmax
          have hmaxval : (MAX_BOOKING_HOURS : ℚ) = 2 := by norm_num [MAX_BOOKING_HOURS]
          rw [hmaxval] at hle
          have := (div60_le_two_iff (b.endTime - a.startTime)).mp hle
          omega

theorem createBooking_error (s : Store) (u : String) (inp : CreateBookingInput)
    (now : Int) (s' : Store) (e : BookingError)
    (h : createBooking s u inp now = (s', .error e)) : s' = s := by
  unfold createBooking at h
  simp only [] at h
  split at h
  · exact (congrArg Prod.fst h).symm
  · split at h
    · exact (congrArg Prod.fst h).symm
    · split at h
      · exact (congrArg Prod.fst h).symm
      · split at h
        · exact (congrArg Prod.fst h).symm
        · simp at h

theorem createBooking_ok (s : Store) (u : String) (inp : CreateBookingInput)
    (now : Int) (s' : Store) (bk : Booking)
    (h : createBooking s u inp now = (s', .ok bk)) :
    bk.id = s.nextBookingId ∧ bk.roomId = inp.roomId ∧ bk.userId = u ∧
    bk.startTime = inp.startTime ∧ bk.endTime = inp.endTime ∧
    bk.status = .confirmed ∧
    s'.rooms = s.rooms ∧ s'.bookings = s.bookings ++ [bk] ∧
    s'.nextBookingId = s.nextBookingId + 1 ∧
    inp.startTime < inp.endTime ∧ inp.endTime - inp.startTime ≤ 120 ∧
    isSameDay inp.startTime inp.endTime = true ∧
    (checkUserBookingLimits s.bookings u inp.startTime).canBook = true ∧
    (∀ b ∈ s.bookings, ¬(b.roomId = inp.roomId ∧ b.startTime < inp.endTime ∧
      b.endTime > inp.startTime ∧ b.status ≠ .cancelled)) ∧
    ∃ snap, s'.snapshots = s.snapshots ++ [snap] ∧ snap.bookingId = bk.id ∧
      snap.userId = u := by
  unfold createBooking at h
  simp only [] at h
  split at h
  · simp at h
  · rename_i hvalid
    split at h
    · simp at h
    · rename_i hlimits
      split at h
      · simp at h
      · rename_i hconf
        split at h
        · simp at h
        · injection h with h1 h2
          injection h2 with h2
          subst h2
          subst h1
          have hvalid' := validateBookingSlots_isValid _ _ (by simpa using hvalid)
          and_intros
          · rfl
          · rfl
          · rfl
          · rfl
          · rfl
          · rfl
          · rfl
          · rfl
          · rfl
          · exact hvalid'.2.1
          · exact hvalid'.2.2
          · exact hvalid'.1
          · simpa using hlimits
          · intro b hb hcontra
            have hthis := List.find?_eq_none.mp hconf b hb
            simp only [Bool.and_eq_true, beq_iff_eq, decide_eq_true_eq, bne_iff_ne,
              not_and, ne_eq] at hthis
            exact hcontra.2.2.2 (not_not.mp (hthis ⟨⟨hcontra.1, hcontra.2.1⟩, hcontra.2.2.1⟩))
          · exact ⟨_, rfl, rfl, rfl⟩

theorem validateBookingModificationTiming_canModify (st now : Int) :
    (validateBookingModificationTiming st now).canModify = true ↔ 15 ≤ st - now := by
  unfold validateBookingModificationTiming
  simp only []
  split
  · rename_i h1
    simp only [Bool.false_eq_true, false_iff]
    omega
  · split
    · rename_i h1 h2
      simp only [Bool.false_eq_true, false_iff]
      omega
    · rename_i h1 h2
      simp only [true_iff]
      omega

theorem modifyBooking_error (s : Store) (u : String) (bid : Nat)
    (upd : UpdateBookingInput) (now : Int) (s' : Store) (e : BookingError)
    (h : modifyBooking s u bid upd now = (s', .error e)) : s' = s := by
  unfold modifyBooking at h
  split at h
  · exact (congrArg Prod.fst h).symm
  · simp only [] at h
    split at h
    · exact (congrArg Prod.fst h).symm
    · split at h
      · exact (congrArg Prod.fst h).symm
      · split at h
        · exact (congrArg Prod.fst h).symm
        · simp at h

theorem cancelBooking_error (s : Store) (u : String) (bid : Nat) (now : Int)
    (s' : Store) (e : BookingError)
    (h : cancelBooking s u bid now = (s', .error e)) : s' = s := by
  unfold cancelBooking at h
  split at h
  · exact (congrArg Prod.fst h).symm
  · simp only [] at h
    split at h
    · exact (congrArg Prod.fst h).symm
    · split at h
      · exact (congrArg Prod.fst h).symm
      · simp at h

theorem cancelBooking_ok (s : Store) (u : String) (bid : Nat) (now : Int)
    (s' : Store) (r : Nat)
    (h : cancelBooking s u bid now = (s', .ok r)) :
    r = bid ∧
    (∃ ex, s.bookings.find? (fun b => b.id == bid) = some ex ∧
      ex.userId = u ∧ 15 ≤ ex.startTime - now) ∧
    s'.bookings = s.bookings.map (applyCancel bid now) ∧
    s'.rooms = s.rooms ∧ s'.snapshots = s.snapshots ∧
    s'.nextBookingId = s.nextBookingId := by
  unfold cancelBooking at h
  split at h
  · simp at h
  · rename_i ex hfind
    simp only [] at h
    split at h
    · simp at h
    · rename_i howner
      split at h
      · simp at h
      · rename_i htiming
        injection h with h1 h2
        injection h2 with h2
        subst h2
        subst h1
        refine ⟨rfl, ⟨ex, hfind, ?_, ?_⟩, rfl, rfl, rfl, rfl⟩
        · simpa using howner
        · exact (validateBookingModificationTiming_canModify _ _).mp (by simpa using htiming)

theorem modifyBooking_ok (s : Store) (u : String) (bid : Nat)
    (upd : UpdateBookingInput) (now : Int) (s' : Store) (bk' : Booking)
    (h : modifyBooking s u bid upd now = (s', .ok bk')) :
    ∃ ex, s.bookings.find? (fun b => b.id == bid) = some ex ∧
      ex.id = bid ∧ ex.userId = u ∧ 15 ≤ ex.startTime - now ∧
      bk' = { ex with startTime := upd.startTime.getD ex.startTime,
                      endTime := upd.endTime.getD ex.endTime,
                      purpose := match upd.purpose with
                        | some p => some p
                        | none => ex.purpose,
                      partySize := upd.partySize.getD ex.partySize,
                      updatedAt := now } ∧
      s'.bookings = s.bookings.map (applyUpdate bid (upd.startTime.getD ex.startTime)
        (upd.endTime.getD ex.endTime)
        (match upd.purpose with | some p => some p | none => ex.purpose)
        (upd.partySize.getD ex.partySize) now) ∧
      s'.rooms = s.rooms ∧ s'.snapshots = s.snapshots ∧
      s'.nextBookingId = s.nextBookingId ∧
      ((upd.startTime.isSome ∨ upd.endTime.isSome) →
        ∀ b ∈ s.bookings, ¬(b.id ≠ bid ∧ b.roomId = ex.roomId ∧
          b.startTime < upd.endTime.getD ex.endTime ∧
          b.endTime > upd.startTime.getD ex.startTime ∧ b.status ≠ .cancelled)) := by
  unfold modifyBooking at h
  split at h
  · simp at h
  · rename_i ex hfind
    simp only [] at h
    split at h
    · simp at h
    · rename_i howner
      split at h
      · simp at h
      · rename_i htiming
        split at h
        · simp at h
        · rename_i htce
          injection h with h1 h2
          subst h1
          injection h2 with h2
          have hexid : ex.id = bid := by simpa using List.find?_some hfind
          refine ⟨ex, hfind, hexid, by simpa using howner,
            (validateBookingModificationTiming_canModify _ _).mp (by simpa using htiming),
            ?_, rfl, rfl, rfl, rfl, ?_⟩
          · rw [← h2]
            simp [hexid]
          · intro htime b hb hcontra
            have hbor : (upd.startTime.isSome || upd.endTime.isSome) = true := by
              rcases htime with ht | ht <;> simp [ht]
            rw [if_pos hbor] at htce
            split at htce
            · simp at htce
            · split at htce
              · simp at htce
              · split at htce
                · simp at htce
                · rename_i hconf
                  have hthis := List.find?_eq_none.mp hconf b hb
                  simp only [Bool.and_eq_true, beq_iff_eq, decide_eq_true_eq,
                    bne_iff_ne, ne_eq, not_and] at hthis
                  exact hcontra.2.2.2.2 (not_not.mp
                    (hthis ⟨⟨⟨hcontra.1, hcontra.2.1⟩, hcontra.2.2.1⟩, hcontra.2.2.2.1⟩))

theorem booking_eq_of_id_eq {bs : List Booking} (hnd : (bs.map Booking.id).Nodup)
    {a b : Booking} (ha : a ∈ bs) (hb : b ∈ bs) (hid : a.id = b.id) : a = b :=
  List.inj_on_of_nodup_map hnd ha hb hid

theorem createBooking_preserves_WF (s : Store) (u : String) (inp : CreateBookingInput)
    (now : Int) (hwf : StoreWF s) : StoreWF (createBooking s u inp now).1 := by
  obtain ⟨hnd, hbound, hcf⟩ := hwf
  rcases hres : createBooking s u inp now with ⟨s', r⟩
  cases r with
  | error e =>
    have hss : s' = s := createBooking_error _ _ _ _ _ _ hres
    subst hss
    exact ⟨hnd, hbound, hcf⟩
  | ok bk =>
    obtain ⟨hid, hroom, huser, hstart, hend, hstatus, hrooms, hbookings, hnext,
      hlt, hdur, hday, hcan, hnoconf, hsnapex⟩ := createBooking_ok _ _ _ _ _ _ hres
    show StoreWF s'
    refine ⟨?_, ?_, ?_⟩
    · rw [hbookings, List.map_append, List.nodup_append]
      refine ⟨hnd, by simp, ?_⟩
      intro x hx hx'
      simp only [List.map_cons, List.map_nil, List.mem_singleton] at hx'
      obtain ⟨b, hb, rfl⟩ := List.mem_map.mp hx
      have := hbound b hb
      omega
    · intro b hb
      rw [hbookings] at hb
      rw [hnext]
      rcases List.mem_append.mp hb with hb | hb
      · have := hbound b hb
        omega
      · simp only [List.mem_singleton] at hb
        subst hb
        omega
    · intro c1 hc1 c2 hc2 hne hroomEq hnc1 hnc2 hov
      rw [hbookings] at hc1 hc2
      rcases List.mem_append.mp hc1 with h1 | h1 <;>
        rcases List.mem_append.mp hc2 with h2 | h2
      · exact hcf c1 h1 c2 h2 hne hroomEq hnc1 hnc2 hov
      · simp only [List.mem_singleton] at h2
        subst h2
        exact hnoconf c1 h1
          ⟨by rw [← hroom, hroomEq], by rw [← hend]; exact hov.1,
           by rw [← hstart]; exact hov.2, hnc1⟩
      · simp only [List.mem_singleton] at h1
        subst h1
        exact hnoconf c2 h2
          ⟨by rw [← hroom, ← hroomEq], by rw [← hend]; exact hov.2,
           by rw [← hstart]; exact hov.1, hnc2⟩
      · simp only [List.mem_singleton] at h1 h2
        subst h1
        subst h2
        exact hne rfl

theorem applyUpdate_id (bid : Nat) (fs fe : Int) (fp : Option String) (fps : Nat)
    (now : Int) (b : Booking) : (applyUpdate bid fs fe fp fps now b).id = b.id := by
  unfold applyUpdate
  split <;> rfl

theorem applyUpdate_roomId (bid : Nat) (fs fe : Int) (fp : Option String) (fps : Nat)
    (now : Int) (b : Booking) : (applyUpdate bid fs fe fp fps now b).roomId = b.roomId := by
  unfold applyUpdate
  split <;> rfl

theorem applyUpdate_status (bid : Nat) (fs fe : Int) (fp : Option String) (fps : Nat)
    (now : Int) (b : Booking) : (applyUpdate bid fs fe fp fps now b).status = b.status := by
  unfold applyUpdate
  split <;> rfl

theorem applyUpdate_of_ne (bid : Nat) (fs fe : Int) (fp : Option String) (fps : Nat)
    (now : Int) (b : Booking) (h : b.id ≠ bid) :
    applyUpdate bid fs fe fp fps now b = b := by
  simp [applyUpdate, h]

theorem applyUpdate_of_eq (bid : Nat) (fs fe : Int) (fp : Option String) (fps : Nat)
    (now : Int) (b : Booking) (h : b.id = bid) :
    applyUpdate bid fs fe fp fps now b =
      { b with startTime := fs, endTime := fe, purpose := fp, partySize := fps,
               updatedAt := now } := by
  simp [applyUpdate, h]

theorem applyCancel_id (bid : Nat) (now : Int) (b : Booking) :
    (applyCancel bid now b).id = b.id := by
  unfold applyCancel
  split <;> rfl

theorem applyCancel_roomId (bid : Nat) (now : Int) (b : Booking) :
    (applyCancel bid now b).roomId = b.roomId := by
  unfold applyCancel
  split <;> rfl

theorem applyCancel_startTime (bid : Nat) (now : Int) (b : Booking) :
    (applyCancel bid now b).startTime = b.startTime := by
  unfold applyCancel
  split <;> rfl

theorem applyCancel_endTime (bid : Nat) (now : Int) (b : Booking) :
    (applyCancel bid now b).endTime = b.endTime := by
  unfold applyCancel
  split <;> rfl

theorem applyCancel_of_eq (bid : Nat) (now : Int) (b : Booking) (h : b.id = bid) :
    applyCancel bid now b = { b with status := .cancelled, updatedAt := now } := by
  simp [applyCancel, h]

theorem applyCancel_of_ne (bid : Nat) (now : Int) (b : Booking) (h : b.id ≠ bid) :
    applyCancel bid now b = b := by
  simp [applyCancel, h]

theorem modifyBooking_preserves_WF (s : Store) (u : String) (bid : Nat)
    (upd : UpdateBookingInput) (now : Int) (hwf : StoreWF s) :
    StoreWF (modifyBooking s u bid upd now).1 := by
  obtain ⟨hnd, hbound, hcf⟩ := hwf
  rcases hres : modifyBooking s u bid upd now with ⟨s', r⟩
  cases r with
  | error e =>
    have hss : s' = s := modifyBooking_error _ _ _ _ _ _ _ hres
    subst hss
    exact ⟨hnd, hbound, hcf⟩
  | ok bk' =>
    obtain ⟨ex, hfind, hexid, huser, htm, hbk, hbookings, hrooms, hsnap, hnext, hconf⟩ :=
      modifyBooking_ok _ _ _ _ _ _ _ hres
    have hexmem : ex ∈ s.bookings := List.mem_of_find?_eq_some hfind
    show StoreWF s'
    set fs := upd.startTime.getD ex.startTime with hfs
    set fe := upd.endTime.getD ex.endTime with hfe
    set fp := (match upd.purpose with | some p => some p | none => ex.purpose) with hfp
    set fps := upd.partySize.getD ex.partySize with hfps
    refine ⟨?_, ?_, ?_⟩
    · have : s'.bookings.map Booking.id = s.bookings.map Booking.id := by
        rw [hbookings, List.map_map]
        exact List.map_congr_left (fun b _ => applyUpdate_id bid fs fe fp fps now b)
      rw [this]
      exact hnd
    · intro b hb
      rw [hbookings] at hb
      obtain ⟨a, ha, rfl⟩ := List.mem_map.mp hb
      rw [applyUpdate_id, hnext]
      exact hbound a ha
    · intro c1 hc1 c2 hc2 hne hroomEq hnc1 hnc2 hov
      rw [hbookings] at hc1 hc2
      obtain ⟨a1, ha1, rfl⟩ := List.mem_map.mp hc1
      obtain ⟨a2, ha2, rfl⟩ := List.mem_map.mp hc2
      rw [applyUpdate_id, applyUpdate_id] at hne
      rw [applyUpdate_roomId, applyUpdate_roomId] at hroomEq
      rw [applyUpdate_status] at hnc1 hnc2
      by_cases h1 : a1.id = bid <;> by_cases h2 : a2.id = bid
      · exact hne (by rw [h1, h2])
      · have ha1ex : a1 = ex := booking_eq_of_id_eq hnd ha1 hexmem (h1.trans hexid.symm)
        subst ha1ex
        rw [applyUpdate_of_eq bid fs fe fp fps now a1 h1,
          applyUpdate_of_ne bid fs fe fp fps now a2 h2] at hov
        by_cases htime : upd.startTime.isSome ∨ upd.endTime.isSome
        · exact hconf htime a2 ha2 ⟨h2, hroomEq.symm, hov.2, hov.1, hnc2⟩
        · rw [not_or] at htime
          obtain ⟨hts, hte⟩ := htime
          have hts' : upd.startTime = none := Option.not_isSome_iff_eq_none.mp hts
          have hte' : upd.endTime = none := Option.not_isSome_iff_eq_none.mp hte
          have hfs' : fs = a1.startTime := by rw [hfs, hts']; rfl
          have hfe' : fe = a1.endTime := by rw [hfe, hte']; rfl
          rw [hfs', hfe'] at hov
          exact hcf a1 ha1 a2 ha2 hne hroomEq hnc1 hnc2 hov
      · have ha2ex : a2 = ex := booking_eq_of_id_eq hnd ha2 hexmem (h2.trans hexid.symm)
        subst ha2ex
        rw [applyUpdate_of_eq bid fs fe fp fps now a2 h2,
          applyUpdate_of_ne bid fs fe fp fps now a1 h1] at hov
        by_cases htime : upd.startTime.isSome ∨ upd.endTime.isSome
        · exact hconf htime a1 ha1 ⟨h1, hroomEq, hov.1, hov.2, hnc1⟩
        · rw [not_or] at htime
          obtain ⟨hts, hte⟩ := htime
          have hts' : upd.startTime = none := Option.not_isSome_iff_eq_none.mp hts
          have hte' : upd.endTime = none := Option.not_isSome_iff_eq_none.mp hte
          have hfs' : fs = a2.startTime := by rw [hfs, hts']; rfl
          have hfe' : fe = a2.endTime := by rw [hfe, hte']; rfl
          rw [hfs', hfe'] at hov
          exact hcf a1 ha1 a2 ha2 hne hroomEq hnc1 hnc2 hov
      · rw [applyUpdate_of_ne bid fs fe fp fps now a1 h1,
          applyUpdate_of_ne bid fs fe fp fps now a2 h2] at hov
        exact hcf a1 ha1 a2 ha2 hne hroomEq hnc1 hnc2 hov

theorem cancelBooking_preserves_WF (s : Store) (u : String) (bid : Nat)
    (now : Int) (hwf : StoreWF s) : StoreWF (cancelBooking s u bid now).1 := by
  obtain ⟨hnd, hbound, hcf⟩ := hwf
  rcases hres : cancelBooking s u bid now with ⟨s', r⟩
  cases r with
  | error e =>
    have hss : s' = s := cancelBooking_error _ _ _ _ _ _ hres
    subst hss
    exact ⟨hnd, hbound, hcf⟩
  | ok n =>
    obtain ⟨hn, ⟨ex, hfind, huser, htm⟩, hbookings, hrooms, hsnap, hnext⟩ :=
      cancelBooking_ok _ _ _ _ _ _ hres
    show StoreWF s'
    refine ⟨?_, ?_, ?_⟩
    · have : s'.bookings.map Booking.id = s.bookings.map Booking.id := by
        rw [hbookings, List.map_map]
        exact List.map_congr_left (fun b _ => applyCancel_id bid now b)
      rw [this]
      exact hnd
    · intro b hb
      rw [hbookings] at hb
      obtain ⟨a, ha, rfl⟩ := List.mem_map.mp hb
      rw [applyCancel_id, hnext]
      exact hbound a ha
    · intro c1 hc1 c2 hc2 hne hroomEq hnc1 hnc2 hov
      rw [hbookings] at hc1 hc2
      obtain ⟨a1, ha1, rfl⟩ := List.mem_map.mp hc1
      obtain ⟨a2, ha2, rfl⟩ := List.mem_map.mp hc2
      rw [applyCancel_id, applyCancel_id] at hne
      rw [applyCancel_roomId, applyCancel_roomId] at hroomEq
      rw [applyCancel_startTime, applyCancel_startTime, applyCancel_endTime,
        applyCancel_endTime] at hov
      by_cases h1 : a1.id = bid
      · rw [applyCancel_of_eq bid now a1 h1] at hnc1
        exact hnc1 rfl
      · by_cases h2 : a2.id = bid
        · rw [applyCancel_of_eq bid now a2 h2] at hnc2
          exact hnc2 rfl
        · rw [applyCancel_of_ne bid now a1 h1] at hnc1
          rw [applyCancel_of_ne bid now a2 h2] at hnc2
          exact hcf a1 ha1 a2 ha2 hne hroomEq hnc1 hnc2 hov

theorem applyOp_preserves_WF (s : Store) (op : Op) (hwf : StoreWF s) :
    StoreWF (applyOp s op) := by
  cases op with
  | create u i n => exact createBooking_preserves_WF s u i n hwf
  | modify u bid upd n => exact modifyBooking_preserves_WF s u bid upd n hwf
  | cancel u bid n => exact cancelBooking_preserves_WF s u bid n hwf

theorem runOps_preserves_WF (s : Store) (ops : List Op) (hwf : StoreWF s) :
    StoreWF (runOps s ops) := by
  induction ops generalizing s with
  | nil => exact hwf
  | cons op rest ih => exact ih _ (applyOp_preserves_WF s op hwf)

/-- C1: from any well-formed store (unique primary keys below the
autoincrement counter — database facts — and a conflict-free booking table),
every state reached by any sequence of sequential create/modify/cancel route
invocations keeps the core invariant: no two distinct non-cancelled
reservations on one room have overlapping half-open `[start, end)` intervals,
overlap being `existing.start < newEnd ∧ existing.end > newStart`. -/
theorem spec_C1_conflictFree_invariant (s : Store) (ops : List Op)
    (hwf : StoreWF s) : ConflictFree (runOps s ops).bookings :=
  (runOps_preserves_WF s ops hwf).2.2

/-- C1 witness: a concrete run — two competing create requests and a
cancellation against the one-room store — ends conflict-free. -/
theorem spec_C1_conflictFree_invariant_witness :
    ConflictFree (runOps emptyStore
      [.create "alice" demoReq 0, .create "bob" demoReq 0,
       .cancel "alice" 1 0]).bookings :=
  spec_C1_conflictFree_invariant emptyStore
    [.create "alice" demoReq 0, .create "bob" demoReq 0, .cancel "alice" 1 0]
    (by
      refine ⟨by decide, by decide, ?_⟩
      intro b1 hb1 b2 hb2 hne
      simp [emptyStore] at hb1)

/-- C3: the create transaction is all-or-nothing: an error leaves the store
untouched, and success appends exactly one confirmed `Reservation` together
with exactly one `FairnessSnapshot` referencing it — never one without the
other. -/
theorem spec_C3_createBooking_atomic (s : Store) (u : String)
    (inp : CreateBookingInput) (now : Int) :
    (∀ e, (createBooking s u inp now).2 = .error e →
      (createBooking s u inp now).1 = s) ∧
    (∀ bk, (createBooking s u inp now).2 = .ok bk →
      bk.status = .confirmed ∧
      (createBooking s u inp now).1.bookings = s.bookings ++ [bk] ∧
      ∃ snap, (createBooking s u inp now).1.snapshots = s.snapshots ++ [snap] ∧
        snap.bookingId = bk.id ∧ snap.userId = u) := by
  rcases hres : createBooking s u inp now with ⟨s', r⟩
  constructor
  · intro e he
    replace he : r = .error e := he
    subst he
    exact createBooking_error _ _ _ _ _ _ hres
  · intro bk hbk
    replace hbk : r = .ok bk := hbk
    subst hbk
    obtain ⟨hid, hroom, huser, hstart, hend, hstatus, hrooms, hbookings, hnext,
      hlt, hdur, hday, hcan, hnoconf, hsnapex⟩ := createBooking_ok _ _ _ _ _ _ hres
    exact ⟨hstatus, hbookings, hsnapex⟩

/-- C3 witness: the demo request against the empty store commits one
confirmed reservation and one snapshot together. -/
theorem spec_C3_createBooking_atomic_witness :
    demoBooking.status = .confirmed ∧
    (createBooking emptyStore "alice" demoReq 0).1.bookings =
      emptyStore.bookings ++ [demoBooking] ∧
    ∃ snap, (createBooking emptyStore "alice" demoReq 0).1.snapshots =
      emptyStore.snapshots ++ [snap] ∧ snap.bookingId = demoBooking.id ∧
      snap.userId = "alice" :=
  (spec_C3_createBooking_atomic emptyStore "alice" demoReq 0).2 demoBooking (by
    norm_num [createBooking, emptyStore, demoReq, demoBooking, room1, demoHostel,
      validateBookingSlots, checkUserBookingLimits, isSameDay, dayOf, startOfDay,
      getDay, DAILY_BOOKING_CAP, WEEKLY_HOURS_CAP, MAX_BOOKING_HOURS, SLOT_MINUTES])

theorem div60_gt_two_iff (d : ℤ) : (2 : ℚ) < (d : ℚ) / 60 ↔ 120 < d := by
  rw [lt_div_iff₀ (by norm_num : (0 : ℚ) < 60)]
  norm_num
  exact_mod_cast Iff.rfl

theorem div60_nonpos_iff (d : ℤ) : (d : ℚ) / 60 ≤ 0 ↔ d ≤ 0 := by
  rw [div_le_iff₀ (by norm_num : (0 : ℚ) < 60), zero_mul]
  exact_mod_cast Iff.rfl

theorem validateBookingSlots_spec_midnight (a b : TimeSlot)
    (hday : isSameDay a.startTime b.startTime = false) :
    (validateBookingSlots a b).isValid = false ∧
    (validateBookingSlots a b).error = some "Bookings cannot cross midnight" := by
  unfold validateBookingSlots
  simp only []
  rw [if_pos (by simp [hday])]
  exact ⟨rfl, rfl⟩

theorem validateBookingSlots_spec_maxDuration (a b : TimeSlot)
    (hday : isSameDay a.startTime b.startTime = true)
    (hdur : 120 < b.endTime - a.startTime) :
    (validateBookingSlots a b).isValid = false ∧
    (validateBookingSlots a b).error = some "Maximum booking duration is 2 hours" := by
  unfold validateBookingSlots
  simp only []
  rw [if_neg (by simp [hday]), if_pos]
  · exact ⟨rfl, rfl⟩
  · show (MAX_BOOKING_HOURS : ℚ) < _
    have hmaxval : (MAX_BOOKING_HOURS : ℚ) = 2 := by norm_num [MAX_BOOKING_HOURS]
    rw [hmaxval]
    exact (div60_gt_two_iff (b.endTime - a.startTime)).mpr hdur

theorem validateBookingSlots_spec_endBeforeStart (a b : TimeSlot)
    (hday : isSameDay a.startTime b.startTime = true)
    (hend : b.endTime ≤ a.startTime) :
    (validateBookingSlots a b).isValid = false ∧
    (validateBookingSlots a b).error = some "End time must be after start time" := by
  unfold validateBookingSlots
  simp only []
  rw [if_neg (by simp [hday]), if_neg, if_pos]
  · exact ⟨rfl, rfl⟩
  · show _ ≤ (0 : ℚ)
    exact (div60_nonpos_iff (b.endTime - a.startTime)).mpr (by omega)
  · show ¬ (MAX_BOOKING_HOURS : ℚ) < _
    have hmaxval : (MAX_BOOKING_HOURS : ℚ) = 2 := by norm_num [MAX_BOOKING_HOURS]
    rw [hmaxval]
    intro hcon
    have := (div60_gt_two_iff (b.endTime - a.startTime)).mp hcon
    omega

/-- C5: a same-day request whose duration exceeds `MAX_BOOKING_HOURS` (more
than 120 minutes) is rejected with the maximum-duration validation message
for every store — irrespective of quota state or existing reservations;
likewise `end ≤ start` (same day) yields the end-after-start message and a
midnight-crossing request the cross-midnight message. -/
theorem spec_C5_validation_rejections (s : Store) (u : String)
    (inp : CreateBookingInput) (now : Int) :
    (isSameDay inp.startTime inp.endTime = true →
      120 < inp.endTime - inp.startTime →
      createBooking s u inp now =
        (s, .error (.validation "Maximum booking duration is 2 hours"))) ∧
    (isSameDay inp.startTime inp.endTime = true → inp.endTime ≤ inp.startTime →
      createBooking s u inp now =
        (s, .error (.validation "End time must be after start time"))) ∧
    (isSameDay inp.startTime inp.endTime = false →
      createBooking s u inp now =
        (s, .error (.validation "Bookings cannot cross midnight"))) := by
  refine ⟨?_, ?_, ?_⟩
  · intro hday hdur
    obtain ⟨hv, he⟩ := validateBookingSlots_spec_maxDuration
      { startTime := inp.startTime, endTime := inp.startTime,
        date := dayOf inp.startTime, isAvailable := true }
      { startTime := inp.endTime, endTime := inp.endTime,
        date := dayOf inp.endTime, isAvailable := true } hday hdur
    unfold createBooking
    simp only []
    rw [if_pos (by rw [hv]; rfl), he]
    rfl
  · intro hday hend
    obtain ⟨hv, he⟩ := validateBookingSlots_spec_endBeforeStart
      { startTime := inp.startTime, endTime := inp.startTime,
        date := dayOf inp.startTime, isAvailable := true }
      { startTime := inp.endTime, endTime := inp.endTime,
        date := dayOf inp.endTime, isAvailable := true } hday hend
    unfold createBooking
    simp only []
    rw [if_pos (by rw [hv]; rfl), he]
    rfl
  · intro hday
    obtain ⟨hv, he⟩ := validateBookingSlots_spec_midnight
      { startTime := inp.startTime, endTime := inp.startTime,
        date := dayOf inp.startTime, isAvailable := true }
      { startTime := inp.endTime, endTime := inp.endTime,
        date := dayOf inp.endTime, isAvailable := true } hday
    unfold createBooking
    simp only []
    rw [if_pos (by rw [hv]; rfl), he]
    rfl

/-- C5 witness: the spec's 16:00–18:30 (2.5 h) request is rejected with the
maximum-duration message even against the empty store. -/
theorem spec_C5_validation_rejections_witness :
    createBooking emptyStore "alice" c5req 0 =
      (emptyStore, .error (.validation "Maximum booking duration is 2 hours")) :=
  (spec_C5_validation_rejections emptyStore "alice" c5req 0).1 (by decide) (by decide)

/-- C2: the create transaction runs under Serializable isolation, so a
concurrent pair of overlapping admissions on one room executes as one of the
two serial orders; quantifying over both requests covers both orders.  If
the first admission succeeds, the second cannot succeed; if the second
passes validation and quota (the benign case of the spec's scenario) it
fails precisely with the conflict error; and afterwards at most one
confirmed reservation on the room overlaps the contested interval. -/
theorem spec_C2_concurrent_admissions (s : Store) (u1 u2 : String)
    (i1 i2 : CreateBookingInput) (n1 n2 : Int) (s1 : Store) (b1 : Booking)
    (hroom : i2.roomId = i1.roomId)
    (hov1 : i1.startTime < i2.endTime) (hov2 : i2.startTime < i1.endTime)
    (h1 : createBooking s u1 i1 n1 = (s1, .ok b1)) :
    (∀ b2, (createBooking s1 u2 i2 n2).2 ≠ .ok b2) ∧
    ((validateBookingSlots
        { startTime := i2.startTime, endTime := i2.startTime,
          date := dayOf i2.startTime, isAvailable := true }
        { startTime := i2.endTime, endTime := i2.endTime,
          date := dayOf i2.endTime, isAvailable := true }).isValid = true →
      (checkUserBookingLimits s1.bookings u2 i2.startTime).canBook = true →
      createBooking s1 u2 i2 n2 = (s1, .error (.conflict "Time slot already booked"))) ∧
    (createBooking s1 u2 i2 n2).1.bookings.countP (fun b =>
        b.roomId == i1.roomId && b.status == BookingStatus.confirmed &&
        decide (b.startTime < min i1.endTime i2.endTime) &&
        decide (max i1.startTime i2.startTime < b.endTime)) ≤ 1 := by
  obtain ⟨hid, hroomb1, huser, hstart, hend, hstatus, hrooms, hbookings, hnext,
    hlt, hdur, hday, hcan, hnoconf, hsnapex⟩ := createBooking_ok _ _ _ _ _ _ h1
  have hmem : b1 ∈ s1.bookings := by
    rw [hbookings]
    exact List.mem_append_right _ (List.mem_singleton_self b1)
  have hfind2 : (s1.bookings.find? (fun b =>
      b.roomId == i2.roomId && decide (b.startTime < i2.endTime) &&
      decide (b.endTime > i2.startTime) && b.status != .cancelled)).isSome := by
    rw [List.find?_isSome]
    refine ⟨b1, hmem, ?_⟩
    simp only [Bool.and_eq_true, beq_iff_eq, decide_eq_true_eq, bne_iff_ne]
    refine ⟨⟨⟨by rw [hroomb1, hroom], by rw [hstart]; exact hov1⟩,
      by rw [hend]; exact hov2⟩, by simp [hstatus]⟩
  have hnosucc : ∀ b2, (createBooking s1 u2 i2 n2).2 ≠ .ok b2 := by
    rcases hres2 : createBooking s1 u2 i2 n2 with ⟨s2, r2⟩
    intro b2 hcon
    replace hcon : r2 = .ok b2 := hcon
    subst hcon
    obtain ⟨_, _, _, hstart2, hend2, _, _, _, _, _, _, _, _, hnoconf2, _⟩ :=
      createBooking_ok _ _ _ _ _ _ hres2
    exact hnoconf2 b1 hmem
      ⟨by rw [hroomb1, hroom], by rw [hstart]; exact hov1,
       by rw [hend]; exact hov2, by simp [hstatus]⟩
  refine ⟨hnosucc, ?_, ?_⟩
  · intro hvalid2 hcan2
    unfold createBooking
    simp only []
    rw [if_neg (by rw [hvalid2]; simp), if_neg (by rw [hcan2]; simp)]
    obtain ⟨bc, hbc⟩ := Option.isSome_iff_exists.mp hfind2
    rw [hbc]
  · have hs2 : (createBooking s1 u2 i2 n2).1 = s1 := by
      rcases hres2 : createBooking s1 u2 i2 n2 with ⟨s2, r2⟩
      cases r2 with
      | error e => exact createBooking_error _ _ _ _ _ _ hres2
      | ok b2 =>
        exact absurd (by rw [hres2] : (createBooking s1 u2 i2 n2).2 = .ok b2)
          (hnosucc b2)
    rw [hs2, hbookings, List.countP_append]
    have hzero : s.bookings.countP (fun b =>
        b.roomId == i1.roomId && b.status == BookingStatus.confirmed &&
        decide (b.startTime < min i1.endTime i2.endTime) &&
        decide (max i1.startTime i2.startTime < b.endTime)) = 0 := by
      rw [List.countP_eq_zero]
      intro b hb hbp
      simp only [Bool.and_eq_true, beq_iff_eq, decide_eq_true_eq] at hbp
      refine hnoconf b hb ⟨hbp.1.1.1, ?_, ?_, by simp [hbp.1.1.2]⟩
      · have := hbp.1.2
        omega
      · have := hbp.2
        omega
    rw [hzero]
    simpa using List.countP_le_length (l := [b1]) (p := fun b =>
      b.roomId == i1.roomId && b.status == BookingStatus.confirmed &&
      decide (b.startTime < min i1.endTime i2.endTime) &&
      decide (max i1.startTime i2.startTime < b.endTime))

/-- C2 witness: the spec's scenario — after alice's 10:00–11:00 admission on
room 1 commits, bob's identical concurrent admission (serialized second)
receives exactly the conflict error. -/
theorem spec_C2_concurrent_admissions_witness :
    createBooking demoStore1 "bob" demoReq 0 =
      (demoStore1, .error (.conflict "Time slot already booked")) :=
  (spec_C2_concurrent_admissions emptyStore "alice" "bob" demoReq demoReq 0 0
    demoStore1 demoBooking rfl (by decide) (by decide)
    (by
      norm_num [createBooking, emptyStore, demoReq, demoBooking, demoStore1,
        demoSnap, room1, demoHostel, validateBookingSlots, checkUserBookingLimits,
        isSameDay, dayOf, startOfDay, getDay, DAILY_BOOKING_CAP, WEEKLY_HOURS_CAP,
        MAX_BOOKING_HOURS, SLOT_MINUTES])).2.1
    (by
      norm_num [validateBookingSlots, isSameDay, dayOf, demoReq, MAX_BOOKING_HOURS])
    (by
      norm_num +decide [checkUserBookingLimits, demoStore1, demoBooking, demoReq,
        startOfDay, getDay, dayOf, DAILY_BOOKING_CAP, WEEKLY_HOURS_CAP,
        List.filter_cons, List.filter_nil])

/-- C10: a successful cancellation rewrites the booking table pointwise: the
target row changes only its `status` (to cancelled) and `updatedAt` fields —
a record update keeping `roomId`, `userId`, `startTime`, `endTime`,
`purpose`, `partySize` and `createdAt` — every other row is untouched, the
row count is preserved (no deletion), and the rooms and snapshot tables are
unchanged. -/
theorem spec_C10_cancel_frame (s : Store) (u : String) (bid : Nat) (now : Int)
    (s' : Store) (r : Nat) (h : cancelBooking s u bid now = (s', .ok r)) :
    s'.bookings.length = s.bookings.length ∧
    s'.rooms = s.rooms ∧ s'.snapshots = s.snapshots ∧
    s'.nextBookingId = s.nextBookingId ∧
    s'.bookings = s.bookings.map (applyCancel bid now) ∧
    ∀ b ∈ s.bookings,
      (b.id ≠ bid → applyCancel bid now b = b) ∧
      (b.id = bid → applyCancel bid now b =
        { b with status := .cancelled, updatedAt := now }) := by
  obtain ⟨hr, hex, hbookings, hrooms, hsnap, hnext⟩ := cancelBooking_ok _ _ _ _ _ _ h
  refine ⟨by rw [hbookings, List.length_map], hrooms, hsnap, hnext, hbookings, ?_⟩
  intro b hb
  exact ⟨applyCancel_of_ne bid now b, applyCancel_of_eq bid now b⟩

/-- C10 witness: cancelling alice's booking in the one-booking store keeps
the row (status flipped to cancelled) and every other table intact. -/
theorem spec_C10_cancel_frame_witness :
    demoStore1Cancelled.bookings.length = demoStore1.bookings.length ∧
    demoStore1Cancelled.bookings = demoStore1.bookings.map (applyCancel 1 0) :=
  ⟨(spec_C10_cancel_frame demoStore1 "alice" 1 0 demoStore1Cancelled 1 (by decide)).1,
   (spec_C10_cancel_frame demoStore1 "alice" 1 0 demoStore1Cancelled 1 (by decide)).2.2.2.2.1⟩

theorem validateBookingModificationTiming_started (st now : Int) (h : st ≤ now) :
    validateBookingModificationTiming st now =
      { canModify := false,
        error := some "Cannot modify bookings that have already started or are in the past" } := by
  unfold validateBookingModificationTiming
  simp only []
  rw [if_pos (by omega)]

/-- C8 counterexample: the store holds one COMPLETED reservation with a
future start; `cancelBooking` succeeds and transitions it to CANCELLED —
a transition out of `completed`, and a mutation of a settled reservation —
contradicting the claim that no exposed operation touches cancelled or
completed reservations. -/
theorem spec_C8_counterexample :
    (mkBooking 1 1 "u1" 2040 2160 .completed).status = .completed ∧
    cancelBooking c8store "u1" 1 0 =
      ({ rooms := [room1],
         bookings := [{ id := 1, roomId := 1, userId := "u1", startTime := 2040,
                        endTime := 2160, status := .cancelled, purpose := none,
                        partySize := 1, createdAt := 0, updatedAt := 0 }],
         snapshots := [], nextBookingId := 2 }, .ok 1) := by
  decide

/-- C8 amended: the modify and cancel routes never inspect reservation
status; they reject only non-owners and reservations that have started (or
start within 15 minutes).  Hence reservations whose start instant has passed
are immutable through these routes whatever their status; a successful
modification never changes the status field; and a successful cancellation
always sets status to cancelled — even from completed or cancelled. -/
theorem spec_C8_amended :
    (∀ (s : Store) (u : String) (bid : Nat) (upd : UpdateBookingInput)
        (now : Int) (ex : Booking),
      s.bookings.find? (fun b => b.id == bid) = some ex → ex.userId = u →
      ex.startTime ≤ now →
      modifyBooking s u bid upd now = (s, .error (.timing
        "Cannot modify bookings that have already started or are in the past")) ∧
      cancelBooking s u bid now = (s, .error (.timing
        "Cannot modify bookings that have already started or are in the past"))) ∧
    (∀ (s : Store) (u : String) (bid : Nat) (upd : UpdateBookingInput)
        (now : Int) (s' : Store) (bk' : Booking),
      modifyBooking s u bid upd now = (s', .ok bk') →
      ∃ ex ∈ s.bookings, ex.id = bid ∧ bk'.status = ex.status) ∧
    (∀ (s : Store) (u : String) (bid : Nat) (now : Int) (s' : Store) (r : Nat),
      cancelBooking s u bid now = (s', .ok r) →
      ∀ b ∈ s.bookings, b.id = bid →
        { b with status := BookingStatus.cancelled, updatedAt := now } ∈ s'.bookings) := by
  refine ⟨?_, ?_, ?_⟩
  · intro s u bid upd now ex hfind huser hstarted
    constructor
    · unfold modifyBooking
      rw [hfind]
      simp only []
      rw [if_neg (by simp [huser]), validateBookingModificationTiming_started _ _ hstarted]
      rfl
    · unfold cancelBooking
      rw [hfind]
      simp only []
      rw [if_neg (by simp [huser]), validateBookingModificationTiming_started _ _ hstarted]
      rfl
  · intro s u bid upd now s' bk' h
    obtain ⟨ex, hfind, hexid, huser, htm, hbk, hbookings, hrooms, hsnap, hnext, hconf⟩ :=
      modifyBooking_ok _ _ _ _ _ _ _ h
    exact ⟨ex, List.mem_of_find?_eq_some hfind, hexid, by rw [hbk]⟩
  · intro s u bid now s' r h b hb hbid
    obtain ⟨hr, hex, hbookings, hrooms, hsnap, hnext⟩ := cancelBooking_ok _ _ _ _ _ _ h
    rw [hbookings]
    rw [← applyCancel_of_eq bid now b hbid]
    exact List.mem_map_of_mem _ hb

/-- C8 amended witness: a booking whose start (2040) lies before `now`
(3000) cannot be modified or cancelled, whatever its status. -/
theorem spec_C8_amended_witness :
    modifyBooking c8store "u1" 1 noUpd 3000 = (c8store, .error (.timing
      "Cannot modify bookings that have already started or are in the past")) ∧
    cancelBooking c8store "u1" 1 3000 = (c8store, .error (.timing
      "Cannot modify bookings that have already started or are in the past")) :=
  spec_C8_amended.1 c8store "u1" 1 noUpd 3000
    (mkBooking 1 1 "u1" 2040 2160 .completed) (by decide) rfl (by decide)

/-- C7 amended: the modification quota guard rejects exactly when the new
duration strictly exceeds the old one AND the user's quota check at the new
start time already reports `canBook = false` AND the weekly hours plus the
additional hours exceed the cap.  A user whose quota check still passes is
therefore never rejected, even when the added hours push the weekly total
over `WEEKLY_HOURS_CAP` — which is what the counterexample exhibits. -/
theorem spec_C7_amended (bookings : List Booking) (u : String)
    (os oe ns ne : Int) :
    (validateModifiedBookingLimits bookings u os oe ns ne).isValid = false ↔
      (((oe - os : ℤ) : ℚ) / 60 < ((ne - ns : ℤ) : ℚ) / 60 ∧
       (checkUserBookingLimits bookings u ns).canBook = false ∧
       (WEEKLY_HOURS_CAP : ℚ) <
         (checkUserBookingLimits bookings u ns).weeklyHours +
           (((ne - ns : ℤ) : ℚ) / 60 - ((oe - os : ℤ) : ℚ) / 60)) := by
  unfold validateModifiedBookingLimits
  simp only []
  split
  · rename_i hgt
    split
    · rename_i hcond
      simp only [Bool.and_eq_true, Bool.not_eq_true', decide_eq_true_eq] at hcond
      exact iff_of_true rfl ⟨hgt, hcond.1, hcond.2⟩
    · rename_i hcond
      simp only [Bool.and_eq_true, Bool.not_eq_true', decide_eq_true_eq, not_and] at hcond
      refine iff_of_false (by simp) ?_
      rintro ⟨h1, h2, h3⟩
      exact absurd h3 (hcond h2)
  · rename_i hgt
    refine iff_of_false (by simp) ?_
    rintro ⟨h1, h2, h3⟩
    exact hgt h1

/-- C7 counterexample: `u1` holds 4.75 weekly hours (2 h + 2 h + 0.25 h +
the 0.5 h booking being modified); extending booking 1 from 0.5 h to 2 h adds
1.5 h, pushing the weekly total to 6.25 h > 6 h — yet the modification
succeeds, because the guard fires only when the quota check already fails. -/
theorem spec_C7_counterexample :
    (WEEKLY_HOURS_CAP : ℚ) <
      (checkUserBookingLimits c7store.bookings "u1" 6360).weeklyHours +
        (((6480 - 6360 : ℤ) : ℚ) / 60 - ((6390 - 6360 : ℤ) : ℚ) / 60) ∧
    (modifyBooking c7store "u1" 1 c7upd 0).2 =
      .ok { id := 1, roomId := 1, userId := "u1", startTime := 6360,
            endTime := 6480, status := .confirmed, purpose := none,
            partySize := 1, createdAt := 0, updatedAt := 0 } := by
  constructor
  · norm_num +decide [checkUserBookingLimits, c7store, mkBooking, startOfDay,
      getDay, dayOf, DAILY_BOOKING_CAP, WEEKLY_HOURS_CAP,
      List.filter_cons, List.filter_nil]
  · norm_num +decide [modifyBooking, c7store, c7upd, mkBooking,
      validateBookingSlots, validateModifiedBookingLimits, checkUserBookingLimits,
      validateBookingModificationTiming, isSameDay, dayOf, startOfDay, getDay,
      DAILY_BOOKING_CAP, WEEKLY_HOURS_CAP, MAX_BOOKING_HOURS,
      List.filter_cons, List.filter_nil, List.find?]

/-- C7 amended witness: the characterization applied at the counterexample's
modification request. -/
theorem spec_C7_amended_witness :
    (validateModifiedBookingLimits c7store.bookings "u1" 6360 6390 6360 6480).isValid
        = false ↔
      (((6390 - 6360 : ℤ) : ℚ) / 60 < ((6480 - 6360 : ℤ) : ℚ) / 60 ∧
       (checkUserBookingLimits c7store.bookings "u1" 6360).canBook = false ∧
       (WEEKLY_HOURS_CAP : ℚ) <
         (checkUserBookingLimits c7store.bookings "u1" 6360).weeklyHours +
           (((6480 - 6360 : ℤ) : ℚ) / 60 - ((6390 - 6360 : ℤ) : ℚ) / 60)) :=
  spec_C7_amended c7store.bookings "u1" 6360 6390 6360 6480

theorem mem_day_iff (t d : Int) :
    (startOfDay d ≤ t ∧ t < startOfDay d + 24 * 60) ↔ dayOf t = dayOf d := by
  unfold startOfDay dayOf
  omega

theorem mem_week_iff (t d : Int) :
    (startOfDay d - getDay d * 1440 ≤ t ∧
     t < startOfDay d - getDay d * 1440 + 7 * 24 * 60) ↔
    dayOf t / 7 = dayOf d / 7 := by
  unfold startOfDay getDay dayOf
  omega

theorem dailyFilter_eq (bookings : List Booking) (u : String) (date : Int) :
    bookings.filter (fun b =>
      b.userId == u && decide (startOfDay date ≤ b.startTime) &&
      decide (b.startTime < startOfDay date + 24 * 60) && b.status != .cancelled) =
    bookings.filter (fun b =>
      b.userId == u && b.status != .cancelled &&
      (dayOf b.startTime == dayOf date)) := by
  apply List.filter_congr
  intro b _
  rw [Bool.eq_iff_iff]
  simp only [Bool.and_eq_true, beq_iff_eq, decide_eq_true_eq, bne_iff_ne, ne_eq]
  constructor
  · rintro ⟨⟨⟨hu, hge⟩, hlt⟩, hst⟩
    exact ⟨⟨hu, hst⟩, (mem_day_iff b.startTime date).mp ⟨hge, hlt⟩⟩
  · rintro ⟨⟨hu, hst⟩, hde⟩
    obtain ⟨hge, hlt⟩ := (mem_day_iff b.startTime date).mpr hde
    exact ⟨⟨⟨hu, hge⟩, hlt⟩, hst⟩

theorem weeklyFilter_eq (bookings : List Booking) (u : String) (date : Int) :
    bookings.filter (fun b =>
      b.userId == u && decide (startOfDay date - getDay date * 1440 ≤ b.startTime) &&
      decide (b.startTime < startOfDay date - getDay date * 1440 + 7 * 24 * 60) &&
      b.status != .cancelled) =
    bookings.filter (fun b =>
      b.userId == u && b.status != .cancelled &&
      (dayOf b.startTime / 7 == dayOf date / 7)) := by
  apply List.filter_congr
  intro b _
  rw [Bool.eq_iff_iff]
  simp only [Bool.and_eq_true, beq_iff_eq, decide_eq_true_eq, bne_iff_ne, ne_eq]
  constructor
  · rintro ⟨⟨⟨hu, hge⟩, hlt⟩, hst⟩
    exact ⟨⟨hu, hst⟩, (mem_week_iff b.startTime date).mp ⟨hge, hlt⟩⟩
  · rintro ⟨⟨hu, hst⟩, hde⟩
    obtain ⟨hge, hlt⟩ := (mem_week_iff b.startTime date).mpr hde
    exact ⟨⟨⟨hu, hge⟩, hlt⟩, hst⟩

/-- C6: the quota tracker returns `dailyCount` = the number of the user's
non-cancelled reservations starting on the reference calendar day,
`weeklyHours` = the sum of duration-in-hours of the user's non-cancelled
reservations starting in the Sunday-starting week containing the reference
date (day 0 is a Sunday, so weeks are the blocks of 7 consecutive day
indices), and `canBook = false` exactly when the daily count has reached
`DAILY_BOOKING_CAP` (2) or the weekly hours have reached `WEEKLY_HOURS_CAP`
(6), the returned error naming the cap that was hit. -/
theorem spec_C6_quota_tracker (bookings : List Booking) (u : String) (date : Int) :
    (checkUserBookingLimits bookings u date).dailyCount =
      (bookings.filter (fun b => b.userId == u && b.status != .cancelled &&
        (dayOf b.startTime == dayOf date))).length ∧
    (checkUserBookingLimits bookings u date).weeklyHours =
      ((bookings.filter (fun b => b.userId == u && b.status != .cancelled &&
        (dayOf b.startTime / 7 == dayOf date / 7))).map
          (fun b => ((b.endTime - b.startTime : ℤ) : ℚ) / 60)).sum ∧
    ((checkUserBookingLimits bookings u date).canBook = false ↔
      DAILY_BOOKING_CAP ≤ (checkUserBookingLimits bookings u date).dailyCount ∨
      (WEEKLY_HOURS_CAP : ℚ) ≤ (checkUserBookingLimits bookings u date).weeklyHours) ∧
    (DAILY_BOOKING_CAP ≤ (checkUserBookingLimits bookings u date).dailyCount →
      (checkUserBookingLimits bookings u date).error =
        some "Daily booking limit reached (2 bookings per day)") ∧
    ((checkUserBookingLimits bookings u date).dailyCount < DAILY_BOOKING_CAP →
      (WEEKLY_HOURS_CAP : ℚ) ≤ (checkUserBookingLimits bookings u date).weeklyHours →
      (checkUserBookingLimits bookings u date).error =
        some "Weekly hours limit reached (6 hours per week)") := by
  unfold checkUserBookingLimits
  simp only []
  rw [dailyFilter_eq, weeklyFilter_eq]
  split
  · rename_i hd
    refine ⟨rfl, rfl, iff_of_true rfl (Or.inl hd), fun _ => rfl, ?_⟩
    intro hlt _
    have hlt' : (bookings.filter (fun b => b.userId == u && b.status != .cancelled &&
        (dayOf b.startTime == dayOf date))).length < DAILY_BOOKING_CAP := hlt
    exact absurd hd (by omega)
  · rename_i hd
    split
    · rename_i hw
      refine ⟨rfl, rfl, iff_of_true rfl (Or.inr hw), ?_, fun _ _ => rfl⟩
      intro hge
      exact absurd hge hd
    · rename_i hw
      refine ⟨rfl, rfl, ?_, ?_, ?_⟩
      · refine iff_of_false (by simp) ?_
        rintro (h | h)
        exacts [hd h, hw h]
      · intro hge
        exact absurd hge hd
      · intro _ hge
        exact absurd hge hw

/-- C6 witness: a user with two non-cancelled bookings starting on day 1 has
hit the daily cap and the error names it. -/
theorem spec_C6_quota_tracker_witness :
    (checkUserBookingLimits
      [mkBooking 1 1 "u1" 2040 2100 .confirmed,
       mkBooking 2 2 "u1" 2160 2220 .confirmed] "u1" 2040).error =
      some "Daily booking limit reached (2 bookings per day)" :=
  (spec_C6_quota_tracker
    [mkBooking 1 1 "u1" 2040 2100 .confirmed,
     mkBooking 2 2 "u1" 2160 2220 .confirmed] "u1" 2040).2.2.2.1 (by decide)

theorem slotBooking_isSome_iff (bs : List Booking) (sl : TimeSlot) :
    (slotBooking bs sl).isSome = true ↔
      ∃ b ∈ bs, b.startTime ≤ sl.startTime ∧ sl.endTime ≤ b.endTime := by
  unfold slotBooking
  rw [List.getLast?_isSome]
  constructor
  · intro h
    obtain ⟨b, hb⟩ := List.exists_mem_of_ne_nil _ h
    have hmem := List.mem_filter.mp hb
    refine ⟨b, hmem.1, ?_⟩
    simpa using hmem.2
  · rintro ⟨b, hb, h1, h2⟩
    intro hnil
    have hmem : b ∈ bs.filter (fun b =>
        decide (b.startTime ≤ sl.startTime) && decide (sl.endTime ≤ b.endTime)) :=
      List.mem_filter.mpr ⟨hb, by simp [h1, h2]⟩
    rw [hnil] at hmem
    simp at hmem

theorem Utils.generateTimeSlots_spec (date now : Int) (sl : TimeSlot)
    (h : sl ∈ Utils.generateTimeSlots date now) :
    sl.isAvailable = !(isSameDay date now && decide (sl.startTime ≤ now)) ∧
    sl.endTime = sl.startTime + 30 := by
  unfold Utils.generateTimeSlots at h
  simp only [List.mem_flatMap, List.mem_map, List.mem_range] at h
  obtain ⟨hour, hhour, i, hi, rfl⟩ := h
  exact ⟨rfl, by simp [SLOT_MINUTES]⟩

theorem Utils.generateTimeSlots_length (date now : Int) :
    (Utils.generateTimeSlots date now).length = 48 := by
  unfold Utils.generateTimeSlots
  rw [List.length_flatMap]
  simp only [Function.comp_def, List.length_map, List.length_range]
  decide

theorem Avail.generateTimeSlots_allAvailable (date : Int) (sl : TimeSlot)
    (h : sl ∈ Avail.generateTimeSlots date) : sl.isAvailable = true := by
  unfold Avail.generateTimeSlots at h
  simp only [List.mem_flatMap, List.mem_map, List.mem_range'] at h
  obtain ⟨hour, hhour, i, hi, rfl⟩ := h
  rfl

theorem Utils.getRoomAvailability_spec (s : Store) (roomId : Nat) (date : Int)
    (userId : Option String) (now : Int) (res : RoomAvailability)
    (h : Utils.getRoomAvailability s roomId date userId now = some res) :
    res.totalSlots = 48 ∧
    res.slots = (Utils.generateTimeSlots date now).map (fun slot =>
      { slot with
          isAvailable := slot.isAvailable &&
            (slotBooking (relevantBookings s.bookings roomId date) slot).isNone,
          isMyBooking := isMyBookingFlag userId
            (slotBooking (relevantBookings s.bookings roomId date) slot),
          bookingId := (slotBooking (relevantBookings s.bookings roomId date) slot).map
            (fun b => b.id) }) := by
  unfold Utils.getRoomAvailability at h
  split at h
  · simp at h
  · simp only [] at h
    injection h with h
    subst h
    exact ⟨Utils.generateTimeSlots_length date now, rfl⟩

theorem Avail.getRoomAvailability_proj (s : Store) (roomId : Nat) (date : Int)
    (userId : Option String) (res : RoomAvailability)
    (h : Avail.getRoomAvailability s roomId date userId = some res) :
    res.slots = (Avail.generateTimeSlots date).map (fun slot =>
      { slot with
          isAvailable := (slotBooking (relevantBookings s.bookings roomId date) slot).isNone,
          isMyBooking := isMyBookingFlag userId
            (slotBooking (relevantBookings s.bookings roomId date) slot),
          bookingId := (slotBooking (relevantBookings s.bookings roomId date) slot).map
            (fun b => b.id) }) := by
  unfold Avail.getRoomAvailability at h
  split at h
  · simp at h
  · simp only [] at h
    injection h with h
    subst h
    rfl

theorem isNone_eq_false_iff_isSome {α : Type} (o : Option α) :
    (o.isNone = false) ↔ (o.isSome = true) := by
  cases o <;> simp

theorem isSome_of_map {α β : Type} (f : α → β) (o : Option α) :
    (o.map f).isSome = o.isSome := by
  cases o <;> rfl

/-- C4: in the utils availability projector, a generated slot carries a
booking id exactly when some relevant (same-room, same-day, non-cancelled)
reservation's interval fully contains the slot's interval, and — whenever
the requested date is not the current day, so no past-seed interferes — a
slot's final availability is false exactly under that containment.
Concretely (day 10, 30-minute slots over 00:00–24:00): 48 slots are
generated, a single 14:00–16:00 reservation makes exactly the slots starting
14:00, 14:30, 15:00, 15:30 unavailable and `availableSlots = 44`. -/
theorem spec_C4_availability_marking :
    (∀ (s : Store) (roomId : Nat) (date : Int) (userId : Option String)
        (now : Int) (res : RoomAvailability),
      Utils.getRoomAvailability s roomId date userId now = some res →
      res.totalSlots = 48 ∧
      ∀ sl ∈ res.slots,
        (sl.bookingId.isSome = true ↔
          ∃ b ∈ relevantBookings s.bookings roomId date,
            b.startTime ≤ sl.startTime ∧ sl.endTime ≤ b.endTime) ∧
        (isSameDay date now = false →
          (sl.isAvailable = false ↔
            ∃ b ∈ relevantBookings s.bookings roomId date,
              b.startTime ≤ sl.startTime ∧ sl.endTime ≤ b.endTime))) ∧
    ((Utils.getRoomAvailability c4store 1 14400 none 0).map (fun res =>
        (res.totalSlots, res.availableSlots,
         (res.slots.filter (fun sl => !sl.isAvailable)).map (fun sl => sl.startTime)))) =
      some (48, 44, [15240, 15270, 15300, 15330]) := by
  constructor
  · intro s roomId date userId now res h
    obtain ⟨htot, hslots⟩ := Utils.getRoomAvailability_spec _ _ _ _ _ _ h
    refine ⟨htot, ?_⟩
    intro sl hsl
    rw [hslots] at hsl
    obtain ⟨sl0, hsl0, rfl⟩ := List.mem_map.mp hsl
    obtain ⟨hseed, hlen⟩ := Utils.generateTimeSlots_spec _ _ _ hsl0
    have hb := slotBooking_isSome_iff (relevantBookings s.bookings roomId date) sl0
    constructor
    · show ((slotBooking (relevantBookings s.bookings roomId date) sl0).map
          (fun b => b.id)).isSome = true ↔
        ∃ b ∈ relevantBookings s.bookings roomId date,
          b.startTime ≤ sl0.startTime ∧ sl0.endTime ≤ b.endTime
      rw [isSome_of_map]
      exact hb
    · intro hdayf
      show (sl0.isAvailable &&
          (slotBooking (relevantBookings s.bookings roomId date) sl0).isNone) = false ↔
        ∃ b ∈ relevantBookings s.bookings roomId date,
          b.startTime ≤ sl0.startTime ∧ sl0.endTime ≤ b.endTime
      rw [hseed, hdayf]
      simp only [Bool.false_and, Bool.not_false, Bool.true_and]
      rw [isNone_eq_false_iff_isSome]
      exact hb
  · decide

/-- C4 witness: the concrete day-10 scenario — 48 generated slots, the four
slots inside 14:00–16:00 unavailable, 44 available. -/
theorem spec_C4_availability_marking_witness :
    ((Utils.getRoomAvailability c4store 1 14400 none 0).map (fun res =>
        (res.totalSlots, res.availableSlots,
         (res.slots.filter (fun sl => !sl.isAvailable)).map (fun sl => sl.startTime)))) =
      some (48, 44, [15240, 15270, 15300, 15330]) :=
  spec_C4_availability_marking.2

/-- C9 counterexample: for date = now = minute 720 (noon of day 0, i.e.
today), the availability module's generator — used by the rooms API routes —
seeds its 08:00 slot as available even though the slot's start (480) is
before `now` on the current calendar day; the generator never consults a
clock, so the claimed past-pre-marking does not hold for it. -/
theorem spec_C9_counterexample :
    isSameDay 720 720 = true ∧ (480 : Int) ≤ 720 ∧
    (Avail.generateTimeSlots 720).head? = some
      { startTime := 480, endTime := 510, date := 0, isAvailable := true } := by
  decide

/-- C9 amended: the repository holds two divergent availability modules.
The utils module's generator seeds a slot unavailable exactly when the
target date is the current day and the slot's start is at or before `now`,
and its projector's final availability is the conjunction of that seed with
not-covered-by-a-live-reservation — as the claim states.  The availability
module (the one the API routes import) seeds every slot available
regardless of the clock, and its projector's final availability is solely
not-covered. -/
theorem spec_C9_amended :
    (∀ (date now : Int), ∀ sl ∈ Utils.generateTimeSlots date now,
      sl.isAvailable = !(isSameDay date now && decide (sl.startTime ≤ now))) ∧
    (∀ (s : Store) (roomId : Nat) (date : Int) (userId : Option String)
        (now : Int) (res : RoomAvailability),
      Utils.getRoomAvailability s roomId date userId now = some res →
      ∀ sl ∈ res.slots,
        sl.isAvailable = (!(isSameDay date now && decide (sl.startTime ≤ now)) &&
          !sl.bookingId.isSome)) ∧
    (∀ (date : Int), ∀ sl ∈ Avail.generateTimeSlots date, sl.isAvailable = true) ∧
    (∀ (s : Store) (roomId : Nat) (date : Int) (userId : Option String)
        (res : RoomAvailability),
      Avail.getRoomAvailability s roomId date userId = some res →
      ∀ sl ∈ res.slots, sl.isAvailable = !sl.bookingId.isSome) := by
  refine ⟨?_, ?_, ?_, ?_⟩
  · intro date now sl hsl
    exact (Utils.generateTimeSlots_spec date now sl hsl).1
  · intro s roomId date userId now res h sl hsl
    obtain ⟨htot, hslots⟩ := Utils.getRoomAvailability_spec _ _ _ _ _ _ h
    rw [hslots] at hsl
    obtain ⟨sl0, hsl0, rfl⟩ := List.mem_map.mp hsl
    obtain ⟨hseed, hlen⟩ := Utils.generateTimeSlots_spec _ _ _ hsl0
    show (sl0.isAvailable &&
        (slotBooking (relevantBookings s.bookings roomId date) sl0).isNone) =
      (!(isSameDay date now && decide (sl0.startTime ≤ now)) &&
        !((slotBooking (relevantBookings s.bookings roomId date) sl0).map
            (fun b => b.id)).isSome)
    rw [hseed, isSome_of_map]
    cases slotBooking (relevantBookings s.bookings roomId date) sl0 <;> rfl
  · intro date sl hsl
    exact Avail.generateTimeSlots_allAvailable date sl hsl
  · intro s roomId date userId res h sl hsl
    rw [Avail.getRoomAvailability_proj _ _ _ _ _ h] at hsl
    obtain ⟨sl0, hsl0, rfl⟩ := List.mem_map.mp hsl
    show (slotBooking (relevantBookings s.bookings roomId date) sl0).isNone =
      !((slotBooking (relevantBookings s.bookings roomId date) sl0).map
          (fun b => b.id)).isSome
    rw [isSome_of_map]
    cases slotBooking (relevantBookings s.bookings roomId date) sl0 <;> rfl

/-- C9 amended witness: the availability module's 08:00 slot on day 0 is
seeded available. -/
theorem spec_C9_amended_witness :
    ({ startTime := 480, endTime := 510, date := 0,
       isAvailable := true } : TimeSlot).isAvailable = true :=
  spec_C9_amended.2.2.1 720
    { startTime := 480, endTime := 510, date := 0, isAvailable := true }
    (by decide)
